import Mathlib

/-!
Verification of the RepoInsights GitHub-contributor aggregation service.

The development shallowly embeds the service layer of the repository:
the API error classifier `handleApiError`, the per-contributor detail
processing inside `getRepoContributors` (a settled-promise fan-out with
soft failures), the list aggregation (truncate to 50, map, drop nulls),
the server action `fetchContributorsAction` (zod validation plus error
boundary), and the client-side repository-identifier normalization of
the submit handler.

JavaScript runtime values flowing through the untyped JSON handling are
modelled by the inductive `JsValue`; numeric JSON values are modelled as
integers (no claim exercises float or NaN behaviour).  A thrown exception
inside the per-contributor try block is modelled by `Except Unit`; a
thrown error of the fail-fast path carries its message as a `String`.
-/

set_option linter.unusedVariables false

namespace RepoInsights

/-- A JavaScript/JSON runtime value, as handled by the loosely typed
service code. Numbers are modelled as integers. -/
inductive JsValue where
  | undefined
  | null
  | bool (b : Bool)
  | num (n : Int)
  | str (s : String)
  | arr (elems : List JsValue)
  | obj (fields : List (String × JsValue))

/-- JavaScript truthiness: undefined, null, false, 0 and the empty string
are falsy; arrays and objects are always truthy. -/
def jsTruthy : JsValue → Bool
  | .undefined => false
  | .null => false
  | .bool b => b
  | .num n => n != 0
  | .str s => s != ""
  | .arr _ => true
  | .obj _ => true

/-- Whether a value is null or undefined; property access on such a value
throws a TypeError in JavaScript. -/
def jsNullish : JsValue → Bool
  | .undefined => true
  | .null => true
  | _ => false

/-- Whether typeof the value is the string object: objects, arrays and
null all have typeof object in JavaScript. -/
def jsTypeofObject : JsValue → Bool
  | .obj _ => true
  | .arr _ => true
  | .null => true
  | _ => false

/-- Property access on a non-nullish receiver: field lookup on objects,
index lookup on arrays, undefined otherwise (accessing a named property
of a primitive yields undefined via boxing). -/
def jsIndex : JsValue → String → JsValue
  | .obj fields, k =>
    match fields.find? (fun f => f.1 == k) with
    | some f => f.2
    | none => .undefined
  | .arr elems, k =>
    match k.toNat? with
    | some i => elems.getD i .undefined
    | none => .undefined
  | _, _ => .undefined

/-- Property access that throws (models a TypeError on a null or
undefined receiver). -/
def jsGetE (v : JsValue) (k : String) : Except Unit JsValue :=
  if jsNullish v then .error () else .ok (jsIndex v k)

/-- The JavaScript or-operator a || b: a when truthy, otherwise b. -/
def jsOr (a b : JsValue) : JsValue :=
  if jsTruthy a then a else b

/-- Object.keys: field names of an object, index strings of an array. -/
def jsObjectKeys : JsValue → List String
  | .obj fields => fields.map (fun f => f.1)
  | .arr elems => (List.range elems.length).map (fun i => toString i)
  | _ => []

/-- Strict equality comparison of a JsValue against a string, as used by
the full-name exclusion filter. -/
def jsStrictEqStr (v : JsValue) (s : String) : Bool :=
  match v with
  | .str t => t == s
  | _ => false

/-- Strict equality against the boolean true, as used by the permission
flag filter. -/
def isTrueFlag (v : JsValue) : Bool :=
  match v with
  | .bool true => true
  | _ => false

/-- parseInt with radix 10: skip whitespace, optional sign, then a
nonempty run of decimal digits; NaN (modelled as none) otherwise. -/
def jsParseInt (s : String) : Option Int :=
  let t := s.trim
  let signed : Int × String :=
    if t.startsWith "-" then (-1, t.drop 1)
    else if t.startsWith "+" then (1, t.drop 1)
    else (1, t)
  let digits := signed.2.takeWhile Char.isDigit
  match digits.toNat? with
  | some n => some (signed.1 * n)
  | none => none

/-- Left-pad to two digits. -/
def padTwo (n : Nat) : String :=
  if n < 10 then "0" ++ toString n else toString n

/-- Models new Date(ms).toLocaleTimeString(). The exact rendering is
locale and timezone dependent in JavaScript; it is modelled here as the
UTC time of day HH:MM:SS. An invalid date (NaN milliseconds, modelled as
none) renders as Invalid Date. -/
def jsToLocaleTimeString (ms : Option Int) : String :=
  match ms with
  | none => "Invalid Date"
  | some m =>
    let secsOfDay := ((m / 1000).emod 86400).toNat
    padTwo (secsOfDay / 3600) ++ ":" ++ padTwo (secsOfDay / 60 % 60) ++ ":"
      ++ padTwo (secsOfDay % 60)

/-- An HTTP response as observed by the service: status, status text,
headers, and the outcome of calling .json() on the body (a parse failure
carries the message of the thrown error). -/
structure Resp where
  status : Nat
  statusText : String
  headers : String → Option String
  json : Except String JsValue

/-- response.ok: status in the 2xx range. -/
def Resp.ok (r : Resp) : Bool :=
  decide (200 ≤ r.status) && decide (r.status ≤ 299)

/-- The classification produced by handleApiError, one constructor per
throw site of the source. -/
inductive ApiFailure where
  | notFound (context : String)
  | unauthenticated
  | rateLimited (resetTime : String)
  | forbidden
  | apiError (status : Nat) (statusText : String) (context : String)

/-- The message of the Error thrown for each classification, verbatim
from the source. -/
def ApiFailure.message : ApiFailure → String
  | .notFound context =>
    "Resource not found (" ++ context
      ++ "). Please check the repository name or username."
  | .unauthenticated =>
    "Authentication failed. Please check your GitHub token."
  | .rateLimited resetTime =>
    "GitHub API rate limit exceeded. Please wait and try again after "
      ++ resetTime ++ "."
  | .forbidden =>
    "Insufficient permissions. Your token may lack the required scopes (e.g., repo access) or access to this specific resource."
  | .apiError status statusText context =>
    "Failed " ++ context ++ ": GitHub API responded with "
      ++ toString status ++ " " ++ statusText

/-- The reset time string of the rate-limit branch: the reset header,
when present and truthy, parsed as epoch seconds and rendered as a time
of day; otherwise the literal unknown time. -/
def rateLimitResetTime (response : Resp) : String :=
  match response.headers "X-RateLimit-Reset" with
  | some s =>
    if s == "" then "unknown time"
    else jsToLocaleTimeString ((jsParseInt s).map (fun n => n * 1000))
  | none => "unknown time"

/-- The API error classifier of the service layer (handleApiError in
src/services/github.ts): 404, then 401, then 403 split on the
X-RateLimit-Remaining header, then a generic API error. -/
def handleApiError (response : Resp) (context : String) : ApiFailure :=
  if response.status = 404 then .notFound context
  else if response.status = 401 then .unauthenticated
  else if response.status = 403 then
    (if response.headers "X-RateLimit-Remaining" = some "0" then
      .rateLimited (rateLimitResetTime response)
    else .forbidden)
  else .apiError response.status response.statusText context

/-- The outcome of one settled promise of the Promise.allSettled fan-out:
rejected (a network error from safeFetch) or fulfilled with a response. -/
inductive Settled where
  | rejected
  | fulfilled (value : Resp)

/-- The three settled sub-request outcomes for one contributor: user
profile, collaborator permission, and user repositories. -/
structure Details where
  userResult : Settled
  permissionResult : Settled
  reposResult : Settled

/-- The record types built by the service (ContributorRole,
ContributorActivities, GithubRepo, ContributorInfo). Fields written from
untyped JSON keep the JsValue type. -/
structure ContributorRole where
  role : String
  permissions : List String

structure ContributorActivities where
  pullRequests : Int
  commits : JsValue
  issuesOpened : Int

structure GithubRepo where
  name : JsValue
  url : JsValue
  role : String

structure ContributorInfo where
  username : String
  roleInfo : ContributorRole
  activities : ContributorActivities
  externalRepos : List GithubRepo
  emails : List JsValue

/-- .json() of a sub-request response inside the try block: a parse
failure is an exception caught by the outer catch. -/
def jsonOrThrow (r : Resp) : Except Unit JsValue :=
  match r.json with
  | .ok v => .ok v
  | .error _ => .error ()

/-- Processing of the user-profile outcome: on a fulfilled 2xx response,
parse the body and extract the email field when truthy; on rejection or
a non-2xx response the email list defaults to empty. -/
def emailsPart (userResult : Settled) : Except Unit (List JsValue) :=
  match userResult with
  | .rejected => .ok []
  | .fulfilled r =>
    if r.ok then
      match jsonOrThrow r with
      | .error e => .error e
      | .ok userData =>
        match jsGetE userData "email" with
        | .error e => .error e
        | .ok email => .ok (if jsTruthy email then [email] else [])
    else .ok []

/-- s.charAt(0).toUpperCase() + s.slice(1). -/
def capitalizeFirst (s : String) : String :=
  match s.toList with
  | [] => ""
  | c :: rest => String.mk (c.toUpper :: rest)

/-- The role computed from a parsed permission body: a truthy role_name
is capitalized (a truthy non-string role_name makes charAt throw);
otherwise a truthy permission level is mapped admin to Admin, write to
Maintainer, read to Read, anything else to Collaborator; otherwise the
Contributor default stands. -/
def roleFromPermissionData (pd : JsValue) : Except Unit String :=
  if jsTruthy (jsIndex pd "role_name") then
    match jsIndex pd "role_name" with
    | .str s => .ok (capitalizeFirst s)
    | _ => .error ()
  else if jsTruthy (jsIndex pd "permission") then
    .ok (match jsIndex pd "permission" with
      | .str "admin" => "Admin"
      | .str "write" => "Maintainer"
      | .str "read" => "Read"
      | _ => "Collaborator")
  else .ok "Contributor"

/-- The permission set computed from a parsed permission body: the keys
of a truthy permissions object whose value is strictly true, or the
expansion of a coarse permission level, or empty. -/
def permissionsFromPermissionData (pd : JsValue) : List String :=
  if jsTruthy (jsIndex pd "permissions") && jsTypeofObject (jsIndex pd "permissions") then
    (jsObjectKeys (jsIndex pd "permissions")).filter
      (fun p => isTrueFlag (jsIndex (jsIndex pd "permissions") p))
  else if jsTruthy (jsIndex pd "permission") then
    match jsIndex pd "permission" with
    | .str "admin" => ["admin", "push", "pull"]
    | .str "write" => ["push", "pull"]
    | .str "read" => ["pull"]
    | _ => []
  else []

/-- Processing of the collaborator-permission outcome: on a fulfilled
2xx response, parse the body (property access on a null body throws) and
compute role and permissions; on rejection or any non-2xx status,
including 404, the defaults Contributor and empty stand. -/
def permPart (permissionResult : Settled) : Except Unit (String × List String) :=
  match permissionResult with
  | .rejected => .ok ("Contributor", [])
  | .fulfilled r =>
    if r.ok then
      match jsonOrThrow r with
      | .error e => .error e
      | .ok pd =>
        if jsNullish pd then .error ()
        else
          match roleFromPermissionData pd with
          | .error e => .error e
          | .ok role => .ok (role, permissionsFromPermissionData pd)
    else .ok ("Contributor", [])

/-- One external-repository entry: name and url from the listing, role
inferred from the permission flags (admin, then push, then Read). -/
def externalRepoEntry (repo : JsValue) : GithubRepo :=
  let perms := jsIndex repo "permissions"
  let repoRole :=
    if jsTruthy perms then
      if jsTruthy (jsIndex perms "admin") then "Admin"
      else if jsTruthy (jsIndex perms "push") then "Write"
      else "Read"
    else "Read"
  { name := jsIndex repo "full_name", url := jsIndex repo "html_url", role := repoRole }

/-- The filter pass excluding the target repository from the returned
repository list; accessing full_name on a nullish element throws. -/
def filterExternal (repoName : String) : List JsValue → Except Unit (List JsValue)
  | [] => .ok []
  | repo :: rest =>
    match jsGetE repo "full_name" with
    | .error e => .error e
    | .ok fullName =>
      match filterExternal repoName rest with
      | .error e => .error e
      | .ok rest2 =>
        .ok (if jsStrictEqStr fullName repoName then rest2 else repo :: rest2)

/-- Processing of the user-repositories outcome: on a fulfilled 2xx
response whose body parses to an array, filter out the target repository
and map the rest to GithubRepo entries; any failure, or a non-array
body, yields the empty list. No truncation is applied here. -/
def reposPart (repoName : String) (reposResult : Settled) : Except Unit (List GithubRepo) :=
  match reposResult with
  | .rejected => .ok []
  | .fulfilled r =>
    if r.ok then
      match jsonOrThrow r with
      | .error e => .error e
      | .ok reposData =>
        match reposData with
        | .arr entries =>
          match filterExternal repoName entries with
          | .error e => .error e
          | .ok kept => .ok (kept.map externalRepoEntry)
        | _ => .ok []
    else .ok []

/-- The body of the per-contributor try block: reduce the three settled
outcomes in order and build the ContributorInfo record; commits is the
contributions field of the base-list entry or 0 when falsy; an error is
an exception reaching the outer catch. -/
def processTry (repoName : String) (contributor : JsValue) (username : String)
    (d : Details) : Except Unit ContributorInfo :=
  match emailsPart d.userResult with
  | .error e => .error e
  | .ok publicEmails =>
    match permPart d.permissionResult with
    | .error e => .error e
    | .ok rolePerms =>
      match reposPart repoName d.reposResult with
      | .error e => .error e
      | .ok externalRepos =>
        .ok { username := username
              roleInfo := { role := rolePerms.1, permissions := rolePerms.2 }
              activities :=
                { pullRequests := 0
                  commits := jsOr (jsIndex contributor "contributions") (.num 0)
                  issuesOpened := 0 }
              externalRepos := externalRepos
              emails := publicEmails }

/-- The contributor-detail fetcher for one raw base-list entry: entries
that are falsy or lack a string login are skipped (null), the try block
runs otherwise, and a thrown processing exception is caught as null. -/
def processContributor (repoName : String) (contributor : JsValue) (d : Details) :
    Option ContributorInfo :=
  if jsTruthy contributor = false then none
  else
    match jsIndex contributor "login" with
    | .str username =>
      match processTry repoName contributor username d with
      | .ok info => some info
      | .error _ => none
    | _ => none

/-- The aggregation step after the base call: truncate the decoded list
to its first 50 entries, process each entry (the oracle d gives the
settled sub-request outcomes of the entry at each position), and drop
the null results keeping the order. -/
def aggregateDetails (repoName : String) (contributorsData : List JsValue)
    (d : Nat → Details) : List ContributorInfo :=
  let limitedContributors := contributorsData.take 50
  let results := limitedContributors.enum.map
    (fun p => processContributor repoName p.2 (d p.1))
  results.filterMap id

/-- The network environment of one aggregation run: the outcome of the
base contributor-list call (an error carries the message thrown by
safeFetch) and the sub-request outcomes per processed position. -/
structure World where
  baseCall : Except String Resp
  details : Nat → Details

/-- getRepoContributors: the fail-fast base call classified through
handleApiError, the array-shape check of the decoded body, then the
fan-out aggregation. A thrown error carries its message. -/
def getRepoContributors (w : World) (repoName : String) (githubToken : String) :
    Except String (List ContributorInfo) :=
  match w.baseCall with
  | .error msg => .error msg
  | .ok contributorsRes =>
    if contributorsRes.ok = false then
      .error (handleApiError contributorsRes
        ("fetching contributors for " ++ repoName)).message
    else
      match contributorsRes.json with
      | .error msg => .error msg
      | .ok contributorsData =>
        match contributorsData with
        | .arr l => .ok (aggregateDetails repoName l w.details)
        | _ => .error "Unexpected data format received from GitHub API when fetching contributors."

/-- The result type of the server action. -/
inductive FetchContributorsResult where
  | success (data : List ContributorInfo)
  | failure (error : String)

/-- fetchContributorsAction: zod validation that both strings are
nonempty (collecting both messages, joined with a comma), then the call
to getRepoContributors with every thrown failure converted into a
structured failure result. -/
def fetchContributorsAction (w : World) (repoFullName : String) (githubToken : String) :
    FetchContributorsResult :=
  let validationErrors :=
    (if repoFullName.length ≥ 1 then [] else ["Repository name is required."]) ++
    (if githubToken.length ≥ 1 then [] else ["GitHub token is required."])
  if validationErrors = [] then
    match getRepoContributors w repoFullName githubToken with
    | .ok data => .success data
    | .error msg => .failure msg
  else .failure (String.intercalate ", " validationErrors)

/-- The character class of the owner and repository segments of the
validation pattern. -/
def isNameChar (c : Char) : Bool :=
  c.isAlpha || c.isDigit || c == '_' || c == '-'

/-- The two accepted GitHub URL heads of the validation pattern. -/
def urlHeadHttps : List Char := "https://github.com/".toList

def urlHeadHttp : List Char := "http://github.com/".toList

/-- Drop an accepted URL head when present (the pattern makes the head
optional; a string starting with a head can only match through it, since
the colon stops the owner segment otherwise). -/
def stripGithubUrlHead (s : List Char) : List Char :=
  if urlHeadHttps.isPrefixOf s then s.drop urlHeadHttps.length
  else if urlHeadHttp.isPrefixOf s then s.drop urlHeadHttp.length
  else s

/-- Match the owner/repo core of the pattern against the remainder:
a nonempty run of name characters, a slash, a second nonempty run, then
an optional .git, then an optional slash, then the end. The runs are
maximal exactly as the anchored greedy pattern forces. -/
def parseOwnerRepo (s : List Char) : Option (List Char × List Char) :=
  let owner := s.takeWhile isNameChar
  match s.dropWhile isNameChar with
  | '/' :: rest2 =>
    let repo := rest2.takeWhile isNameChar
    let tail := rest2.dropWhile isNameChar
    if owner ≠ [] ∧ repo ≠ [] ∧
        (tail = [] ∨ tail = ['.', 'g', 'i', 't'] ∨ tail = ['/'] ∨
          tail = ['.', 'g', 'i', 't', '/']) then
      some (owner, repo)
    else none
  | _ => none

/-- The repository-identifier validation and normalization applied by
the form schema and the submit handler: the captured owner/repo group of
the pattern, or none when the input does not match. -/
def matchRepoCapture (s : String) : Option String :=
  (parseOwnerRepo (stripGithubUrlHead s.toList)).map
    (fun p => String.mk (p.1 ++ '/' :: p.2))

/-- The issues collected by the client form schema: a required nonempty
repository field matching the pattern, and a required nonempty token. -/
def formSchemaErrors (repo : String) (token : String) : List String :=
  (if repo.length < 1 then ["Repository name or link is required."] else []) ++
  (if (matchRepoCapture repo).isNone then
    ["Invalid GitHub repository format. Use owner/repo or a full GitHub URL."]
  else []) ++
  (if token.length < 1 then ["GitHub token is required."] else [])

/-- The outcome of one form submission: blocked by schema validation,
blocked by the defensive re-match of the submit handler, or the result
of the server action called with the normalized repository name. -/
inductive SubmitOutcome where
  | validationError (messages : List String)
  | invalidFormat
  | actionResult (result : FetchContributorsResult)

/-- The submit pipeline of the page: schema validation, the defensive
re-match extracting the owner/repo capture, then the server action on
the normalized name. -/
def onSubmit (w : World) (repo : String) (token : String) : SubmitOutcome :=
  if formSchemaErrors repo token ≠ [] then
    .validationError (formSchemaErrors repo token)
  else
    match matchRepoCapture repo with
    | none => .invalidFormat
    | some currentRepoName =>
      .actionResult (fetchContributorsAction w currentRepoName token)

/-! Verification-side helper definitions. -/

/-- The login the aggregator accepts for a raw entry: the string login of
a truthy entry, mirroring the skip guard of the detail fetcher. -/
def loginOf (c : JsValue) : Option String :=
  if jsTruthy c = false then none
  else
    match jsIndex c "login" with
    | .str username => some username
    | _ => none

/-- The number of entries the user-repos endpoint returned in a given
settled outcome: the length of the decoded array on a fulfilled 2xx
response, 0 otherwise. -/
def reposReturnedCount (reposResult : Settled) : Nat :=
  match reposResult with
  | .rejected => 0
  | .fulfilled r =>
    if r.ok then
      match jsonOrThrow r with
      | .ok (.arr entries) => entries.length
      | _ => 0
    else 0

/-- A string of the owner/repo form: a nonempty run of name characters,
a slash, a second nonempty run. -/
def ownerRepoForm (s : String) : Prop :=
  ∃ o p : List Char, s.toList = o ++ '/' :: p ∧ o ≠ [] ∧ p ≠ [] ∧
    (∀ c ∈ o, isNameChar c = true) ∧ (∀ c ∈ p, isNameChar c = true)

/-! Structural lemmas about the embedding. -/

theorem filterMap_id_length_le {α : Type} (L : List (Option α)) :
    (L.filterMap id).length ≤ L.length := by
  induction L with
  | nil => simp
  | cons a t ih =>
    cases a with
    | none => simpa [List.filterMap_cons] using Nat.le_succ_of_le ih
    | some b => simpa [List.filterMap_cons] using ih

theorem filterMap_id_map_some_sublist {α : Type} (L : List (Option α)) :
    List.Sublist ((L.filterMap id).map some) L := by
  induction L with
  | nil => simp
  | cons a t ih =>
    cases a with
    | none => simpa [List.filterMap_cons] using List.Sublist.cons none ih
    | some b => simpa [List.filterMap_cons] using List.Sublist.cons₂ (some b) ih

theorem processTry_ok {rn : String} {c : JsValue} {u : String} {d : Details}
    {info : ContributorInfo} (h : processTry rn c u d = .ok info) :
    info.username = u ∧
    info.activities = ⟨0, jsOr (jsIndex c "contributions") (JsValue.num 0), 0⟩ ∧
    (∃ rp, permPart d.permissionResult = .ok rp ∧ info.roleInfo = ⟨rp.1, rp.2⟩) ∧
    (∃ er, reposPart rn d.reposResult = .ok er ∧ info.externalRepos = er) := by
  unfold processTry at h
  split at h
  · exact Except.noConfusion h
  · next publicEmails hem =>
    split at h
    · exact Except.noConfusion h
    · next rolePerms hrp =>
      split at h
      · exact Except.noConfusion h
      · next er hre =>
        injection h with h
        subst h
        exact ⟨rfl, rfl, ⟨rolePerms, hrp, rfl⟩, ⟨er, hre, rfl⟩⟩

theorem processContributor_some {rn : String} {c : JsValue} {d : Details}
    {rec : ContributorInfo} (h : processContributor rn c d = some rec) :
    jsTruthy c = true ∧ jsIndex c "login" = JsValue.str rec.username ∧
    processTry rn c rec.username d = .ok rec := by
  unfold processContributor at h
  split at h
  · exact Option.noConfusion h
  · next hT =>
    have hct : jsTruthy c = true := by
      cases hjt : jsTruthy c
      · exact absurd hjt hT
      · rfl
    split at h
    · next username hl =>
      split at h
      · next info hpt =>
        injection h with h
        subst h
        obtain ⟨hu, _, _, _⟩ := processTry_ok hpt
        rw [hu]
        exact ⟨hct, hl, hpt⟩
      · exact Option.noConfusion h
    · exact Option.noConfusion h

theorem mem_aggregateDetails {rn : String} {xs : List JsValue} {d : Nat → Details}
    {rec : ContributorInfo} (h : rec ∈ aggregateDetails rn xs d) :
    ∃ p ∈ (xs.take 50).enum, processContributor rn p.2 (d p.1) = some rec := by
  unfold aggregateDetails at h
  simp only [List.mem_filterMap, List.mem_map, id_eq] at h
  obtain ⟨o, ⟨p, hp, rfl⟩, ho⟩ := h
  exact ⟨p, hp, ho⟩

theorem loginOf_of_processContributor_some {rn : String} {c : JsValue} {d : Details}
    {rec : ContributorInfo} (h : processContributor rn c d = some rec) :
    loginOf c = some rec.username := by
  obtain ⟨hct, hl, _⟩ := processContributor_some h
  unfold loginOf
  rw [hct, hl]
  simp

theorem filterExternal_ok {rn : String} :
    ∀ {l kept : List JsValue}, filterExternal rn l = .ok kept →
      (∀ v ∈ kept, jsIndex v "full_name" ≠ JsValue.str rn) ∧
        kept.length ≤ l.length := by
  intro l
  induction l with
  | nil =>
    intro kept h
    unfold filterExternal at h
    injection h with h
    subst h
    simp
  | cons repo rest ih =>
    intro kept h
    unfold filterExternal at h
    split at h
    · exact Except.noConfusion h
    · next fullName hfn =>
      split at h
      · exact Except.noConfusion h
      · next rest2 hrest =>
        obtain ⟨h1, h2⟩ := ih hrest
        injection h with h
        subst h
        by_cases heq : jsStrictEqStr fullName rn = true
        · rw [if_pos heq]
          exact ⟨h1, Nat.le_succ_of_le h2⟩
        · rw [if_neg heq]
          refine ⟨?_, by simpa using Nat.succ_le_succ h2⟩
          intro v hv
          rcases List.mem_cons.mp hv with rfl | hv2
          · have hval : fullName = jsIndex v "full_name" := by
              unfold jsGetE at hfn
              split at hfn
              · exact Except.noConfusion hfn
              · injection hfn with hfn
                exact hfn.symm
            intro hcontra
            apply heq
            rw [hval, hcontra]
            unfold jsStrictEqStr
            simp
          · exact h1 v hv2

theorem reposPart_ok_props {rn : String} {res : Settled} {er : List GithubRepo}
    (h : reposPart rn res = .ok er) :
    (∀ e ∈ er, e.name ≠ JsValue.str rn) ∧ er.length ≤ reposReturnedCount res := by
  unfold reposPart at h
  split at h
  · -- rejected
    injection h with h
    subst h
    simp [reposReturnedCount]
  · next r =>
    split at h
    · next hok =>
      split at h
      · exact Except.noConfusion h
      · next reposData hjson =>
        split at h
        · next entries =>
          split at h
          · exact Except.noConfusion h
          · next kept hkept =>
            injection h with h
            subst h
            obtain ⟨h1, h2⟩ := filterExternal_ok hkept
            constructor
            · intro e he
              obtain ⟨v, hv, rfl⟩ := List.mem_map.mp he
              simpa [externalRepoEntry] using h1 v hv
            · simp only [List.length_map]
              calc kept.length ≤ entries.length := h2
                _ = reposReturnedCount (.fulfilled r) := by
                    simp [reposReturnedCount, hok, hjson]
        · next hne =>
          injection h with h
          subst h
          simp
    · next hok =>
      injection h with h
      subst h
      simp

theorem aggregate_usernames_sublist (rn : String) (d : Nat → Details) :
    ∀ (l : List JsValue) (i : Nat),
      List.Sublist
        ((((l.enumFrom i).map
          (fun p => processContributor rn p.2 (d p.1))).filterMap id).map
            (fun rec => rec.username))
        (l.filterMap loginOf) := by
  intro l
  induction l with
  | nil => intro i; simp [List.enumFrom]
  | cons c t ih =>
    intro i
    simp only [List.enumFrom, List.map_cons, List.filterMap_cons]
    cases hpc : processContributor rn c (d i) with
    | none =>
      cases hl : loginOf c with
      | none => exact ih (i + 1)
      | some u => exact List.Sublist.cons u (ih (i + 1))
    | some rec =>
      rw [loginOf_of_processContributor_some hpc]
      simp only [List.map_cons]
      exact List.Sublist.cons₂ rec.username (ih (i + 1))

theorem matchRepoCapture_form {s r : String} (h : matchRepoCapture s = some r) :
    ownerRepoForm r := by
  unfold matchRepoCapture at h
  cases hm : parseOwnerRepo (stripGithubUrlHead s.toList) with
  | none => rw [hm] at h; exact Option.noConfusion h
  | some pr =>
    rw [hm] at h
    simp only [Option.map_some'] at h
    unfold parseOwnerRepo at hm
    split at hm
    · next rest2 heq =>
      dsimp only [] at hm
      split at hm
      · next hcond =>
        obtain ⟨h1, h2, _⟩ := hcond
        injection hm with hm
        subst hm
        refine ⟨_, _, ?_, h1, h2, ?_, ?_⟩
        · injection h with h
          subst h
          rfl
        · intro ch hch
          exact List.mem_takeWhile_imp hch
        · intro ch hch
          exact List.mem_takeWhile_imp hch
      · exact Option.noConfusion hm
    · exact Option.noConfusion hm

/-! Concrete instances used for witnesses and counterexamples. -/

/-- A base-list entry with login a and 10 contributions. -/
def contribA : JsValue := .obj [("login", .str "a"), ("contributions", .num 10)]

/-- A second entry with the same login a and 2 contributions. -/
def contribA2 : JsValue := .obj [("login", .str "a"), ("contributions", .num 2)]

/-- An entry with login b. -/
def contribB : JsValue := .obj [("login", .str "b"), ("contributions", .num 1)]

/-- All three sub-requests fail with network errors. -/
def detailsRejected : Details := ⟨.rejected, .rejected, .rejected⟩

/-- A 2xx base response whose body decodes to the single-entry list. -/
def respOkList : Resp := ⟨200, "OK", fun _ => none, .ok (.arr [contribA])⟩

/-- A world whose base call succeeds and whose sub-requests all fail. -/
def worldOk : World := ⟨.ok respOkList, fun _ => detailsRejected⟩

/-- The record produced for contribA when every sub-request fails. -/
def recA : ContributorInfo :=
  { username := "a"
    roleInfo := ⟨"Contributor", []⟩
    activities := ⟨0, .num 10, 0⟩
    externalRepos := []
    emails := [] }

/-- A 403 response with the rate limit exhausted and a reset header. -/
def resp403 : Resp :=
  ⟨403, "Forbidden",
    fun k =>
      if k == "X-RateLimit-Remaining" then some "0"
      else if k == "X-RateLimit-Reset" then some "1700000000" else none,
    .ok .null⟩

/-- A world whose base call yields the rate-limited 403. -/
def world403 : World := ⟨.ok resp403, fun _ => detailsRejected⟩

/-- A world whose base call fails at the network level. -/
def worldNetErr : World :=
  ⟨.error "Network connection failed while trying to reach GitHub API.",
    fun _ => detailsRejected⟩

/-- A plain 404 response. -/
def resp404 : Resp := ⟨404, "Not Found", fun _ => none, .ok .null⟩

/-- Sub-request outcomes where only the permission lookup answers, with
status 404. -/
def detailsPerm404 : Details := ⟨.rejected, .fulfilled resp404, .rejected⟩

/-- One external-repository listing entry with a distinct full name. -/
def repoEntry (i : Nat) : JsValue :=
  .obj [("full_name", .str ("x/r" ++ toString i)), ("html_url", .str "u")]

/-- A 2xx user-repos response returning six entries, more than the five
the request asks for. -/
def respRepos6 : Resp :=
  ⟨200, "OK", fun _ => none, .ok (.arr ((List.range 6).map repoEntry))⟩

/-- Sub-request outcomes where only the repos lookup answers, with six
entries. -/
def detailsRepos6 : Details := ⟨.rejected, .rejected, .fulfilled respRepos6⟩

/-! The claims. -/

/-- C1: whenever the base contributor-list call succeeds and its body
decodes to a sequence, the aggregator output has at most 50 records, and
the records correspond, in the same relative order, to entries of the
input list truncated to its first 50 entries (the output mapped through
some is a sublist of the per-entry processing results of the truncated
list). -/
theorem c1_output_capped_and_ordered (w : World) (rn tok : String) (r : Resp)
    (xs : List JsValue) (out : List ContributorInfo)
    (hb : w.baseCall = Except.ok r) (hok : r.ok = true)
    (hj : r.json = Except.ok (JsValue.arr xs))
    (hout : getRepoContributors w rn tok = Except.ok out) :
    out.length ≤ 50 ∧
      List.Sublist (out.map some)
        ((xs.take 50).enum.map (fun p => processContributor rn p.2 (w.details p.1))) := by
  unfold getRepoContributors at hout
  rw [hb] at hout
  simp [hok, hj] at hout
  subst hout
  constructor
  · calc (aggregateDetails rn xs w.details).length
        ≤ ((xs.take 50).enum.map
            (fun p => processContributor rn p.2 (w.details p.1))).length :=
          filterMap_id_length_le _
      _ = (xs.take 50).enum.length := List.length_map _ _
      _ = (xs.take 50).length := List.enum_length
      _ ≤ 50 := by rw [List.length_take]; exact min_le_left _ _
  · exact filterMap_id_map_some_sublist _

/-- Witness for c1_output_capped_and_ordered at a concrete world whose
base call returns a one-entry list. -/
theorem c1_output_capped_and_ordered_witness :
    ([recA] : List ContributorInfo).length ≤ 50 ∧
      List.Sublist ([recA].map some)
        (([contribA].take 50).enum.map
          (fun p => processContributor "octocat/Hello-World" p.2 (worldOk.details p.1))) :=
  c1_output_capped_and_ordered worldOk "octocat/Hello-World" "tok" respOkList
    [contribA] [recA] rfl rfl rfl rfl

/-- C2: for an entry with a valid string login, if the three detail
sub-requests all fail with network errors the fetcher still returns the
full default record (role Contributor, no permissions, commits from the
entry, no external repos, no emails); and it returns null exactly when
the try-block processing raises, never merely because a sub-request was
rejected. -/
theorem c2_detail_defaults_on_network_failure (rn : String) (c : JsValue) (u : String)
    (d : Details) (hc : jsTruthy c = true) (hl : jsIndex c "login" = JsValue.str u) :
    (d.userResult = .rejected → d.permissionResult = .rejected →
      d.reposResult = .rejected →
      processContributor rn c d = some
        { username := u
          roleInfo := ⟨"Contributor", []⟩
          activities := ⟨0, jsOr (jsIndex c "contributions") (JsValue.num 0), 0⟩
          externalRepos := []
          emails := [] }) ∧
    (processContributor rn c d = none ↔ processTry rn c u d = .error ()) := by
  constructor
  · intro hu hp hr
    unfold processContributor
    rw [hc, hl]
    simp only [Bool.true_eq_false, if_false]
    unfold processTry
    rw [hu, hp, hr]
    simp [emailsPart, permPart, reposPart]
  · unfold processContributor
    rw [hc, hl]
    simp only [Bool.true_eq_false, if_false]
    cases hpt : processTry rn c u d with
    | ok info => simp
    | error e => cases e; simp

/-- Witness for c2_detail_defaults_on_network_failure at the concrete
entry contribA with every sub-request rejected. -/
theorem c2_detail_defaults_on_network_failure_witness :
    (detailsRejected.userResult = .rejected →
      detailsRejected.permissionResult = .rejected →
      detailsRejected.reposResult = .rejected →
      processContributor "o/r" contribA detailsRejected = some
        { username := "a"
          roleInfo := ⟨"Contributor", []⟩
          activities := ⟨0, jsOr (jsIndex contribA "contributions") (JsValue.num 0), 0⟩
          externalRepos := []
          emails := [] }) ∧
    (processContributor "o/r" contribA detailsRejected = none ↔
      processTry "o/r" contribA "a" detailsRejected = .error ()) :=
  c2_detail_defaults_on_network_failure "o/r" contribA "a" detailsRejected rfl rfl

/-- C5: when the collaborator-permission lookup of a contributor comes
back fulfilled with HTTP 404, any record the fetcher returns carries the
default role Contributor with an empty permission set, and the outcome
for that contributor is exactly the outcome with the permission lookup
failed softly: the 404 never raises. -/
theorem c5_permission_404_defaults (rn : String) (c : JsValue) (d : Details)
    (r : Resp) (rec : ContributorInfo)
    (hp : d.permissionResult = .fulfilled r) (h404 : r.status = 404)
    (hrec : processContributor rn c d = some rec) :
    rec.roleInfo.role = "Contributor" ∧ rec.roleInfo.permissions = [] ∧
    processContributor rn c d =
      processContributor rn c ⟨d.userResult, .rejected, d.reposResult⟩ := by
  have hnotok : r.ok = false := by simp [Resp.ok, h404]
  have hperm : permPart d.permissionResult = .ok ("Contributor", []) := by
    rw [hp]
    simp [permPart, hnotok]
  have hTry : ∀ u, processTry rn c u d =
      processTry rn c u ⟨d.userResult, .rejected, d.reposResult⟩ := by
    intro u
    unfold processTry
    rw [hperm]
    rfl
  obtain ⟨_, _, hpt⟩ := processContributor_some hrec
  obtain ⟨_, _, ⟨rp, hrp, hri⟩, _⟩ := processTry_ok hpt
  rw [hperm] at hrp
  injection hrp with hrp
  subst hrp
  refine ⟨by rw [hri], by rw [hri], ?_⟩
  unfold processContributor
  cases jsTruthy c
  · rfl
  · cases jsIndex c "login"
    case str username =>
      simp only [Bool.true_eq_false, if_false]
      rw [hTry username]
    all_goals rfl

/-- Witness for c5_permission_404_defaults at the concrete entry
contribA whose permission lookup answers 404. -/
theorem c5_permission_404_defaults_witness :
    recA.roleInfo.role = "Contributor" ∧ recA.roleInfo.permissions = [] ∧
    processContributor "o/r" contribA detailsPerm404 =
      processContributor "o/r" contribA
        ⟨detailsPerm404.userResult, .rejected, detailsPerm404.reposResult⟩ :=
  c5_permission_404_defaults "o/r" contribA detailsPerm404 resp404 recA rfl rfl rfl

/-- C3: on any non-2xx response the classifier follows the priority
order: 404 gives a not-found failure naming the context, 401 gives the
authentication failure, 403 with the rate-limit-remaining header equal
to 0 gives the rate-limited failure whose message contains the time
derived from the rate-limit-reset header, any other 403 gives the
insufficient-permissions failure, and every remaining status gives the
generic API error carrying status, status text and context. -/
theorem c3_classifier_priority (r : Resp) (ctx : String) (hnon2xx : r.ok = false) :
    (r.status = 404 → handleApiError r ctx = .notFound ctx ∧
      ∃ pre post, (handleApiError r ctx).message = pre ++ ctx ++ post) ∧
    (r.status = 401 → handleApiError r ctx = .unauthenticated) ∧
    (r.status = 403 → r.headers "X-RateLimit-Remaining" = some "0" →
      handleApiError r ctx = .rateLimited (rateLimitResetTime r) ∧
      (∃ pre post, (handleApiError r ctx).message =
        pre ++ rateLimitResetTime r ++ post) ∧
      (∀ s, r.headers "X-RateLimit-Reset" = some s → s ≠ "" →
        rateLimitResetTime r =
          jsToLocaleTimeString ((jsParseInt s).map (fun n => n * 1000)))) ∧
    (r.status = 403 → ¬ r.headers "X-RateLimit-Remaining" = some "0" →
      handleApiError r ctx = .forbidden) ∧
    (r.status ≠ 404 → r.status ≠ 401 → r.status ≠ 403 →
      handleApiError r ctx = .apiError r.status r.statusText ctx) := by
  refine ⟨?_, ?_, ?_, ?_, ?_⟩
  · intro h404
    have he : handleApiError r ctx = .notFound ctx := by
      unfold handleApiError
      rw [h404]
      simp
    refine ⟨he, "Resource not found (",
      "). Please check the repository name or username.", ?_⟩
    rw [he]
    rfl
  · intro h401
    unfold handleApiError
    rw [h401]
    simp
  · intro h403 hrem
    have he : handleApiError r ctx = .rateLimited (rateLimitResetTime r) := by
      unfold handleApiError
      rw [h403, hrem]
      simp
    refine ⟨he,
      ⟨"GitHub API rate limit exceeded. Please wait and try again after ",
        ".", by rw [he]; rfl⟩, ?_⟩
    intro s hs hne
    have : (s == "") = false := by
      cases hb : s == ""
      · rfl
      · exact absurd (by simpa using hb) hne
    unfold rateLimitResetTime
    rw [hs]
    simp [this]
  · intro h403 hrem
    unfold handleApiError
    rw [h403]
    simp [hrem]
  · intro h404 h401 h403
    unfold handleApiError
    rw [if_neg h404, if_neg h401, if_neg h403]

/-- Witness for c3_classifier_priority: the 404 conjunct at a concrete
404 response. -/
theorem c3_classifier_priority_witness :
    handleApiError resp404 "fetching contributors for o/r" =
      ApiFailure.notFound "fetching contributors for o/r" :=
  ((c3_classifier_priority resp404 "fetching contributors for o/r" rfl).1 rfl).1

/-- C4: when the base contributor-list call answers 403 with the
rate-limit-remaining header 0 and a nonempty rate-limit-reset header,
the server action returns a structured failure (no exception escapes)
whose message contains the reset time derived from the reset header. -/
theorem c4_rate_limit_surfaced (w : World) (repo token : String) (r : Resp)
    (s : String) (hrepo : repo.length ≥ 1) (htok : token.length ≥ 1)
    (hb : w.baseCall = Except.ok r) (hst : r.status = 403)
    (hrem : r.headers "X-RateLimit-Remaining" = some "0")
    (hreset : r.headers "X-RateLimit-Reset" = some s) (hs : s ≠ "") :
    fetchContributorsAction w repo token =
      .failure ("GitHub API rate limit exceeded. Please wait and try again after "
        ++ jsToLocaleTimeString ((jsParseInt s).map (fun n => n * 1000)) ++ ".") := by
  have hnotok : r.ok = false := by simp [Resp.ok, hst]
  have hreseteq : rateLimitResetTime r =
      jsToLocaleTimeString ((jsParseInt s).map (fun n => n * 1000)) := by
    have : (s == "") = false := by
      cases hb2 : s == ""
      · rfl
      · exact absurd (by simpa using hb2) hs
    unfold rateLimitResetTime
    rw [hreset]
    simp [this]
  have hclass : handleApiError r ("fetching contributors for " ++ repo) =
      .rateLimited (rateLimitResetTime r) := by
    unfold handleApiError
    rw [hst, hrem]
    simp
  simp [fetchContributorsAction, getRepoContributors, hb, hrepo, htok, hnotok,
    hclass, hreseteq, ApiFailure.message]

/-- Witness for c4_rate_limit_surfaced at a concrete rate-limited world. -/
theorem c4_rate_limit_surfaced_witness :
    fetchContributorsAction world403 "octocat/Hello-World" "tok" =
      .failure ("GitHub API rate limit exceeded. Please wait and try again after "
        ++ jsToLocaleTimeString ((jsParseInt "1700000000").map (fun n => n * 1000))
        ++ ".") :=
  c4_rate_limit_surfaced world403 "octocat/Hello-World" "tok" resp403 "1700000000"
    (by decide) (by decide) rfl rfl rfl rfl (by decide)

/-- C6 counterexample: a user-repos response with six entries produces a
record whose externalRepos has length six; the code never truncates the
decoded list, so the bound of five does not hold for arbitrary endpoint
output. -/
theorem c6_counterexample :
    (aggregateDetails "o/r" [contribA] (fun _ => detailsRepos6)).map
      (fun rec => rec.externalRepos.length) = [6] ∧
    ¬ (∀ rec ∈ aggregateDetails "o/r" [contribA] (fun _ => detailsRepos6),
        rec.externalRepos.length ≤ 5) := by
  refine ⟨rfl, ?_⟩
  intro hall
  exact absurd (hall
    { username := "a"
      roleInfo := ⟨"Contributor", []⟩
      activities := ⟨0, .num 10, 0⟩
      externalRepos := (List.range 6).map
        (fun i => ⟨.str ("x/r" ++ toString i), .str "u", "Read"⟩)
      emails := [] }
    (List.mem_cons_self _ [])) (by decide)

/-- C6 amended: every record of an aggregation run has no external repo
named after the queried repository, and the externalRepos length of a
record is bounded by the number of entries the user-repos endpoint
returned for that contributor (the request asks for five via per_page,
but the code applies no cap of its own). -/
theorem c6_amended_external_repos (rn : String) :
    (∀ (xs : List JsValue) (d : Nat → Details) (rec : ContributorInfo),
      rec ∈ aggregateDetails rn xs d →
      ∀ e ∈ rec.externalRepos, e.name ≠ JsValue.str rn) ∧
    (∀ (c : JsValue) (d : Details) (rec : ContributorInfo),
      processContributor rn c d = some rec →
      rec.externalRepos.length ≤ reposReturnedCount d.reposResult) := by
  constructor
  · intro xs d rec hmem e he
    obtain ⟨p, _, hpc⟩ := mem_aggregateDetails hmem
    obtain ⟨_, _, hpt⟩ := processContributor_some hpc
    obtain ⟨_, _, _, er, hre, hre2⟩ := processTry_ok hpt
    obtain ⟨h1, _⟩ := reposPart_ok_props hre
    rw [hre2] at he
    exact h1 e he
  · intro c d rec hpc
    obtain ⟨_, _, hpt⟩ := processContributor_some hpc
    obtain ⟨_, _, _, er, hre, hre2⟩ := processTry_ok hpt
    obtain ⟨_, h2⟩ := reposPart_ok_props hre
    rw [hre2]
    exact h2

/-- The record produced for contribA when only the repos lookup answers,
with six entries. -/
def recASix : ContributorInfo :=
  { username := "a"
    roleInfo := ⟨"Contributor", []⟩
    activities := ⟨0, .num 10, 0⟩
    externalRepos := (List.range 6).map
      (fun i => ⟨.str ("x/r" ++ toString i), .str "u", "Read"⟩)
    emails := [] }

/-- Witness for c6_amended_external_repos: the length bound of the
second conjunct at the concrete contributor of the counterexample. -/
theorem c6_amended_external_repos_witness :
    recASix.externalRepos.length ≤ reposReturnedCount detailsRepos6.reposResult :=
  (c6_amended_external_repos "o/r").2 contribA detailsRepos6 recASix rfl

/-- C7 counterexample: a base list holding two entries with the same
login a yields two records with the same username; the aggregator never
deduplicates logins. -/
theorem c7_counterexample :
    (aggregateDetails "o/r" [contribA, contribA2] (fun _ => detailsRejected)).map
      (fun rec => rec.username) = ["a", "a"] ∧
    ¬ ((aggregateDetails "o/r" [contribA, contribA2]
        (fun _ => detailsRejected)).map (fun rec => rec.username)).Nodup := by
  constructor
  · rfl
  · decide

/-- C7 amended: the output usernames are pairwise distinct whenever the
logins accepted from the truncated base list are pairwise distinct; for
base lists with duplicate logins the aggregator emits duplicate
usernames (see the counterexample). -/
theorem c7_amended_no_duplicate_usernames (rn : String) (xs : List JsValue)
    (d : Nat → Details) (h : ((xs.take 50).filterMap loginOf).Nodup) :
    ((aggregateDetails rn xs d).map (fun rec => rec.username)).Nodup := by
  have hs := aggregate_usernames_sublist rn d (xs.take 50) 0
  exact List.Nodup.sublist hs h

/-- Witness for c7_amended_no_duplicate_usernames on a two-entry base
list with distinct logins. -/
theorem c7_amended_no_duplicate_usernames_witness :
    ((aggregateDetails "o/r" [contribA, contribB]
      (fun _ => detailsRejected)).map (fun rec => rec.username)).Nodup :=
  c7_amended_no_duplicate_usernames "o/r" [contribA, contribB]
    (fun _ => detailsRejected) (by decide)

/-- C8: the orchestration boundary enforces its input checks before any
network activity: an empty repository or token makes the server action
return a structured failure without consulting the network world; a
repository string failing the owner/repo normalization makes the submit
pipeline return a validation error without consulting the network world;
and whenever the pipeline does reach the server action, the repository
string passed on is the capture of the pattern, in owner/repo form. -/
theorem c8_validation_before_network :
    (∀ (w w2 : World) (repo token : String), repo = "" ∨ token = "" →
      (∃ msg, fetchContributorsAction w repo token = .failure msg) ∧
      fetchContributorsAction w repo token = fetchContributorsAction w2 repo token) ∧
    (∀ (w w2 : World) (repo token : String), matchRepoCapture repo = none →
      (∃ msgs, onSubmit w repo token = .validationError msgs) ∧
      onSubmit w repo token = onSubmit w2 repo token) ∧
    (∀ (w : World) (repo token : String) (res : FetchContributorsResult),
      onSubmit w repo token = .actionResult res →
      ∃ rn, matchRepoCapture repo = some rn ∧ ownerRepoForm rn ∧
        res = fetchContributorsAction w rn token) := by
  refine ⟨?_, ?_, ?_⟩
  · intro w w2 repo token hor
    have hne : ((if repo.length ≥ 1 then [] else ["Repository name is required."]) ++
        (if token.length ≥ 1 then [] else ["GitHub token is required."])) ≠
          ([] : List String) := by
      rcases hor with rfl | rfl
      · simp
      · simp
    constructor
    · refine ⟨String.intercalate ", "
        ((if repo.length ≥ 1 then [] else ["Repository name is required."]) ++
          (if token.length ≥ 1 then [] else ["GitHub token is required."])), ?_⟩
      unfold fetchContributorsAction
      rw [if_neg hne]
    · unfold fetchContributorsAction
      rw [if_neg hne, if_neg hne]
  · intro w w2 repo token hnone
    have hne : formSchemaErrors repo token ≠ [] := by
      unfold formSchemaErrors
      rw [hnone]
      simp
    constructor
    · exact ⟨formSchemaErrors repo token, by unfold onSubmit; rw [if_pos hne]⟩
    · unfold onSubmit
      rw [if_pos hne, if_pos hne]
  · intro w repo token res h
    unfold onSubmit at h
    split at h
    · exact SubmitOutcome.noConfusion h
    · split at h
      · exact SubmitOutcome.noConfusion h
      · next rn hcap =>
        injection h with h
        exact ⟨rn, hcap, matchRepoCapture_form hcap, h.symm⟩

/-- Witness for c8_validation_before_network: the empty-repository case
of the first conjunct across two different worlds. -/
theorem c8_validation_before_network_witness :
    (∃ msg, fetchContributorsAction worldOk "" "tok" = .failure msg) ∧
    fetchContributorsAction worldOk "" "tok" =
      fetchContributorsAction worldNetErr "" "tok" :=
  c8_validation_before_network.1 worldOk worldNetErr "" "tok" (Or.inl rfl)

/-- C9: the bare owner/repo form and the GitHub URL form, with optional
trailing .git or slash, normalize to the same owner/repo identifier, and
the submit pipeline behaves identically on the bare and URL forms for
every network world, so the normalization happens before any call. -/
theorem c9_normalization_round_trip :
    matchRepoCapture "octocat/Hello-World" = some "octocat/Hello-World" ∧
    matchRepoCapture "https://github.com/octocat/Hello-World" =
      some "octocat/Hello-World" ∧
    matchRepoCapture "https://github.com/octocat/Hello-World.git" =
      some "octocat/Hello-World" ∧
    matchRepoCapture "https://github.com/octocat/Hello-World/" =
      some "octocat/Hello-World" ∧
    matchRepoCapture "https://github.com/octocat/Hello-World.git/" =
      some "octocat/Hello-World" ∧
    matchRepoCapture "octocat/Hello-World.git" = some "octocat/Hello-World" ∧
    matchRepoCapture "octocat/Hello-World/" = some "octocat/Hello-World" ∧
    ∀ (w : World) (token : String),
      onSubmit w "https://github.com/octocat/Hello-World" token =
        onSubmit w "octocat/Hello-World" token := by
  have h1 : matchRepoCapture "octocat/Hello-World" = some "octocat/Hello-World" := by
    decide
  have h2 : matchRepoCapture "https://github.com/octocat/Hello-World" =
      some "octocat/Hello-World" := by decide
  refine ⟨h1, h2, by decide, by decide, by decide, by decide, by decide, ?_⟩
  intro w token
  have hlen1 : ¬ ("https://github.com/octocat/Hello-World".length < 1) := by decide
  have hlen2 : ¬ ("octocat/Hello-World".length < 1) := by decide
  unfold onSubmit formSchemaErrors
  rw [h1, h2, if_neg hlen1, if_neg hlen2]

/-- C10: every record the aggregator returns has pullRequests and
issuesOpened equal to 0, and commits equal to the contributions field of
its base-list entry, defaulting to 0 when that field is falsy or
absent. -/
theorem c10_activity_counters (rn : String) (xs : List JsValue) (d : Nat → Details)
    (rec : ContributorInfo) (h : rec ∈ aggregateDetails rn xs d) :
    rec.activities.pullRequests = 0 ∧ rec.activities.issuesOpened = 0 ∧
    ∃ c ∈ xs.take 50, jsTruthy c = true ∧
      jsIndex c "login" = JsValue.str rec.username ∧
      rec.activities.commits = jsOr (jsIndex c "contributions") (JsValue.num 0) := by
  obtain ⟨p, hp, hpc⟩ := mem_aggregateDetails h
  obtain ⟨hct, hl, hpt⟩ := processContributor_some hpc
  obtain ⟨_, hact, _, _⟩ := processTry_ok hpt
  have hmem : p.2 ∈ xs.take 50 := by
    have := List.mem_map_of_mem Prod.snd hp
    rwa [List.enum_map_snd] at this
  exact ⟨by rw [hact], by rw [hact], p.2, hmem, hct, hl, by rw [hact]⟩

/-- Witness for c10_activity_counters at the single-record run of the
concrete world. -/
theorem c10_activity_counters_witness :
    recA.activities.pullRequests = 0 ∧ recA.activities.issuesOpened = 0 ∧
    ∃ c ∈ [contribA].take 50, jsTruthy c = true ∧
      jsIndex c "login" = JsValue.str recA.username ∧
      recA.activities.commits = jsOr (jsIndex c "contributions") (JsValue.num 0) :=
  c10_activity_counters "o/r" [contribA] (fun _ => detailsRejected) recA
    (List.mem_cons_self recA [])

end RepoInsights
